import Mathlib

/-!
Verification of the x0x agent network against its specification.

The development shallowly embeds the Python sources under src/python/x0x
(the Agent class and the Message dataclass of agent.py) and, for the parts
of the system whose implementation lives behind the native binding layer
(identity hex codec, agent builder, subscriptions, and the task-list CRDT
— only their tests and callers are present in the repository sources),
models them from the specification, as marked on each definition.

Bytes are represented as natural numbers (meaningful values are < 256),
byte strings as lists of naturals, and Python text as Lean String.
-/

namespace X0x

/-- Message, from src/python/x0x/agent.py lines 11-22: a dataclass with
exactly three fields, in source order: origin (the originating agent's
identifier), payload (the message payload bytes) and topic (the topic the
message was published to). The dataclass declares no further field. -/
structure Message where
  origin : String
  payload : List Nat
  topic : String
  deriving DecidableEq

/-- The mutable state of an Agent, from src/python/x0x/agent.py: the
constructor body is a single assignment, self._connected = False, so the
state is the one boolean flag. -/
structure AgentState where
  connected : Bool
  deriving DecidableEq

/-- Agent.__init__ from src/python/x0x/agent.py lines 33-34: sets
_connected to False. -/
def Agent.init : AgentState := ⟨false⟩

/-- Agent.join_network from src/python/x0x/agent.py lines 36-42: the body
(after the docstring and the placeholder comment) is the single assignment
self._connected = True. -/
def Agent.join_network (s : AgentState) : AgentState :=
  { s with connected := true }

/-- The is_connected accessor used by the repository's tests
(tests/test_network.py): reads the _connected flag of the agent state. -/
def Agent.is_connected (s : AgentState) : Bool := s.connected

/-- The error kind named PayloadTooLarge by the specification's error
taxonomy (section 7). No code path in src/python/x0x raises it. -/
inductive PublishError where
  | payloadTooLarge
  deriving DecidableEq

/-- Agent.publish from src/python/x0x/agent.py lines 57-68: the body after
the docstring is `pass` — it returns None, raises nothing, and neither
reads nor writes any agent state, for every topic and payload. -/
def Agent.publish (s : AgentState) (topic : String) (payload : List Nat) :
    AgentState × Except PublishError Unit :=
  (s, .ok ())

/-- Agent.subscribe from src/python/x0x/agent.py lines 44-55: the generator
body executes `return` before its `yield`, so the message sequence produced
for any topic, in any agent state, is empty. -/
def Agent.subscribe (s : AgentState) (topic : String) : List Message := []

/-- A concrete topic used to evaluate the code at one input. -/
def newsTopic : String := "news"

/-- C1: for every agent, topic, and message published to that topic after a
subscription to the topic was created, the subscription receives its own copy
of that message. Evaluated at a concrete input: the agent joins the network,
a subscription to the topic exists, and publish succeeds — yet the
subscription's message sequence is empty, so the published message is never
received. This refutes the claim on the code as written (the placeholder
bodies of publish and subscribe deliver nothing, contradicting their own
docstrings and the specification). -/
theorem publish_not_delivered :
    (Agent.publish (Agent.join_network Agent.init) newsTopic [104, 105]).1 =
      Agent.join_network Agent.init ∧
    (Agent.publish (Agent.join_network Agent.init) newsTopic [104, 105]).2 =
      .ok () ∧
    Agent.subscribe
        (Agent.publish (Agent.join_network Agent.init) newsTopic [104, 105]).1
        newsTopic = [] :=
  ⟨rfl, rfl, rfl⟩

/-- C2: the specification says every Message carries topic, payload, sender
and timestamp. In the code a Message is fully determined by its three
declared fields origin, payload and topic: two Message values agreeing on
those three are equal, so no timestamp field exists. -/
theorem message_fields (m₁ m₂ : Message)
    (ho : m₁.origin = m₂.origin) (hp : m₁.payload = m₂.payload)
    (ht : m₁.topic = m₂.topic) : m₁ = m₂ := by
  cases m₁
  cases m₂
  simp_all

/-- A concrete Message value. -/
def sampleMessage : Message :=
  { origin := "a", payload := [1], topic := "t" }

/-- Witness for message_fields at a concrete input. -/
theorem message_fields_witness : sampleMessage = sampleMessage :=
  message_fields sampleMessage sampleMessage rfl rfl rfl

/-- C3: join_network called N ≥ 1 times consecutively leaves the agent in
exactly the state of a single call, the agent is connected and is_connected
returns true afterward, and a further call on an already connected agent has
no effect. (The source has no distinct Connecting state: join_network is a
single flag assignment, so the Connecting clause is vacuous.) -/
theorem join_network_idempotent (s : AgentState) (n : Nat) (h : 1 ≤ n) :
    Agent.join_network^[n] s = Agent.join_network s ∧
    Agent.is_connected (Agent.join_network^[n] s) = true ∧
    Agent.join_network (Agent.join_network s) = Agent.join_network s := by
  have hconst : ∀ t : AgentState, Agent.join_network t = ⟨true⟩ := by
    intro t
    rfl
  have hiter : Agent.join_network^[n] s = ⟨true⟩ := by
    induction n with
    | zero => omega
    | succ m ih =>
      rw [Function.iterate_succ_apply']
      exact hconst _
  refine ⟨?_, ?_, ?_⟩
  · rw [hiter, hconst]
  · rw [hiter]
    rfl
  · rw [hconst, hconst]

/-- Witness for join_network_idempotent at a concrete input. -/
theorem join_network_idempotent_witness :
    1 ≤ 3 ∧
    (Agent.join_network^[3] Agent.init = Agent.join_network Agent.init ∧
     Agent.is_connected (Agent.join_network^[3] Agent.init) = true ∧
     Agent.join_network (Agent.join_network Agent.init) =
       Agent.join_network Agent.init) :=
  ⟨by decide, join_network_idempotent Agent.init 3 (by decide)⟩

/-- C4: publish accepts the empty payload, and the claim says oversized
payloads fail with PayloadTooLarge. Evaluating the code: publish also
accepts a payload of 2^20 + 1 bytes — indeed it returns ok for every agent
state, topic and payload, so no size ceiling is enforced and PayloadTooLarge
is never raised (nor is any payload truncated: no payload is ever used). -/
theorem publish_never_rejects :
    (Agent.publish Agent.init newsTopic []).2 = .ok () ∧
    (Agent.publish Agent.init newsTopic
        (List.replicate (2 ^ 20 + 1) 120)).2 = .ok () ∧
    ∀ (s : AgentState) (topic : String) (payload : List Nat),
      (Agent.publish s topic payload).2 = .ok () :=
  ⟨rfl, rfl, fun _ _ _ => rfl⟩

/-- C10: publish returns None (modelled as ok ()), never raises, and leaves
the agent's observable state — in particular the connected flag — exactly
unchanged, for every agent state, topic and payload. -/
theorem publish_frame (s : AgentState) (topic : String) (payload : List Nat) :
    Agent.publish s topic payload = (s, .ok ()) ∧
    (Agent.publish s topic payload).1.connected = s.connected :=
  ⟨rfl, rfl⟩

namespace Identity

/-- Modelled from the spec: the identity hex codec is implemented behind the
native binding layer and is absent from the repository sources (only
tests/test_identity.py exercises it). Per spec section 3 and 4.1 the
canonical textual form of a 32-byte identifier is its lowercase
64-hex-character encoding. hexDigit maps a value below 16 to its lowercase
hex digit. -/
def hexDigit (n : Nat) : Char :=
  if n < 10 then Char.ofNat (48 + n) else Char.ofNat (87 + n)

/-- Modelled from the spec: one byte encodes as two lowercase hex digits,
high nibble first. -/
def encodeByte (b : Nat) : List Char :=
  [hexDigit (b / 16), hexDigit (b % 16)]

/-- Modelled from the spec: encode renders a byte string as its lowercase
hex encoding (64 characters for a 32-byte identifier). -/
def encode (bs : List Nat) : String :=
  String.mk (bs.flatMap encodeByte)

/-- Modelled from the spec: the value of one hex digit, case-insensitive
(0-9, a-f, A-F); none for a non-hex character. -/
def hexVal (c : Char) : Option Nat :=
  if 48 ≤ c.toNat ∧ c.toNat ≤ 57 then some (c.toNat - 48)
  else if 97 ≤ c.toNat ∧ c.toNat ≤ 102 then some (c.toNat - 87)
  else if 65 ≤ c.toNat ∧ c.toNat ≤ 70 then some (c.toNat - 55)
  else none

/-- A character is a hex digit when hexVal accepts it. -/
def isHexChar (c : Char) : Bool := (hexVal c).isSome

/-- Modelled from the spec: pair up hex digits into bytes, high nibble
first. -/
def decodeBytes : List Char → List Nat
  | c₁ :: c₂ :: rest =>
      ((hexVal c₁).getD 0 * 16 + (hexVal c₂).getD 0) :: decodeBytes rest
  | _ => []

/-- The decode failure kinds of spec section 4.1: InvalidHexEncoding on a
non-hex character, InvalidLength when the decoded bytes are not exactly
32. -/
inductive HexError where
  | invalidHexEncoding
  | invalidLength
  deriving DecidableEq

/-- Modelled from the spec: decode is case-insensitive, fails with
InvalidHexEncoding on non-hex characters and with InvalidLength when the
decoded byte count is not 32 (64 hex characters). -/
def decode (s : String) : Except HexError (List Nat) :=
  if s.data.all isHexChar then
    if s.data.length = 64 then .ok (decodeBytes s.data)
    else .error .invalidLength
  else .error .invalidHexEncoding

/-- ASCII lowercasing of a string, character by character. -/
def strToLower (s : String) : String :=
  String.mk (s.data.map Char.toLower)

lemma hexVal_hexDigit : ∀ n, n < 16 → hexVal (hexDigit n) = some n := by
  decide

lemma hexVal_lt (c : Char) (v : Nat) (h : hexVal c = some v) : v < 16 := by
  unfold hexVal at h
  split_ifs at h with h₁ h₂ h₃ <;> simp_all <;> omega

lemma hexDigit_eq_toLower (c : Char) (v : Nat) (h : hexVal c = some v) :
    hexDigit v = Char.toLower c := by
  unfold hexVal at h
  split_ifs at h with h₁ h₂ h₃
  · obtain ⟨ha, hb⟩ := h₁
    injection h with hv
    subst hv
    have hlt : c.toNat - 48 < 10 := by omega
    have : 48 + (c.toNat - 48) = c.toNat := by omega
    rw [hexDigit, if_pos hlt, this, Char.ofNat_toNat]
    have : Char.toLower c = c := by
      simp [Char.toLower]
      intro hge hle
      omega
    rw [this]
  · obtain ⟨ha, hb⟩ := h₂
    injection h with hv
    subst hv
    have hlt : ¬ (c.toNat - 87 < 10) := by omega
    have : 87 + (c.toNat - 87) = c.toNat := by omega
    rw [hexDigit, if_neg hlt, this, Char.ofNat_toNat]
    have : Char.toLower c = c := by
      simp [Char.toLower]
      intro hge hle
      omega
    rw [this]
  · obtain ⟨ha, hb⟩ := h₃
    injection h with hv
    subst hv
    have hlt : ¬ (c.toNat - 55 < 10) := by omega
    have h87 : 87 + (c.toNat - 55) = c.toNat + 32 := by omega
    rw [hexDigit, if_neg hlt, h87]
    have : Char.toLower c = Char.ofNat (c.toNat + 32) := by
      simp [Char.toLower]
      omega
    rw [this]

lemma decodeBytes_encode :
    ∀ bs : List Nat, (∀ b ∈ bs, b < 256) →
      decodeBytes (bs.flatMap encodeByte) = bs := by
  intro bs
  induction bs with
  | nil => intro _; rfl
  | cons b rest ih =>
    intro h
    have hb : b < 256 := h b (by simp)
    have hdiv : b / 16 < 16 := by omega
    have hmod : b % 16 < 16 := by omega
    simp only [List.flatMap_cons, encodeByte, List.cons_append,
      List.nil_append, decodeBytes]
    rw [hexVal_hexDigit _ hdiv, hexVal_hexDigit _ hmod]
    simp only [Option.getD_some]
    have : b / 16 * 16 + b % 16 = b := by omega
    rw [this]
    exact congrArg (b :: ·) (ih (fun x hx => h x (by simp [hx])))

lemma length_flatMap_encodeByte :
    ∀ bs : List Nat, (bs.flatMap encodeByte).length = 2 * bs.length := by
  intro bs
  induction bs with
  | nil => rfl
  | cons b rest ih =>
    simp only [List.flatMap_cons, List.length_append, ih, encodeByte]
    simp
    omega

lemma all_isHexChar_encode (bs : List Nat) (h : ∀ b ∈ bs, b < 256) :
    ∀ c ∈ bs.flatMap encodeByte, isHexChar c = true := by
  intro c hc
  obtain ⟨b, hb, hcb⟩ := List.mem_flatMap.mp hc
  have hblt : b < 256 := h b hb
  have hdiv : b / 16 < 16 := by omega
  have hmod : b % 16 < 16 := by omega
  simp only [encodeByte, List.mem_cons, List.mem_singleton] at hcb
  rcases hcb with h1 | h1 | h1
  · subst h1
    simp [isHexChar, hexVal_hexDigit _ hdiv]
  · subst h1
    simp [isHexChar, hexVal_hexDigit _ hmod]
  · exact absurd h1 (by simp)

lemma flatMap_decodeBytes :
    ∀ l : List Char, (∀ c ∈ l, isHexChar c = true) → l.length % 2 = 0 →
      (decodeBytes l).flatMap encodeByte = l.map Char.toLower
  | [], _, _ => by simp [decodeBytes]
  | [c], _, he => by simp at he
  | c₁ :: c₂ :: rest, ha, he => by
    have h₁ : (hexVal c₁).isSome := ha c₁ (by simp)
    have h₂ : (hexVal c₂).isSome := ha c₂ (by simp)
    obtain ⟨v₁, hv₁⟩ := Option.isSome_iff_exists.mp h₁
    obtain ⟨v₂, hv₂⟩ := Option.isSome_iff_exists.mp h₂
    have hl₁ : v₁ < 16 := hexVal_lt c₁ v₁ hv₁
    have hl₂ : v₂ < 16 := hexVal_lt c₂ v₂ hv₂
    have hdiv : (v₁ * 16 + v₂) / 16 = v₁ := by omega
    have hmod : (v₁ * 16 + v₂) % 16 = v₂ := by omega
    have hrest : (decodeBytes rest).flatMap encodeByte =
        rest.map Char.toLower :=
      flatMap_decodeBytes rest (fun c hc => ha c (by simp [hc]))
        (by simp at he ⊢; omega)
    simp only [decodeBytes, hv₁, hv₂, Option.getD_some, List.flatMap_cons,
      encodeByte, hdiv, hmod, List.map_cons, hrest, List.cons_append,
      List.nil_append]
    rw [hexDigit_eq_toLower c₁ v₁ hv₁, hexDigit_eq_toLower c₂ v₂ hv₂]

end Identity

/-- C6: for every 32-byte identifier, decoding its encoding returns the
identifier; and for every valid 64-character hex string (upper or lower
case), decoding succeeds and re-encoding the result gives the lowercase form
of the string — the codec round-trips, decoding is case-insensitive, and the
canonical textual form is lowercase. -/
theorem hex_roundtrip :
    (∀ bs : List Nat, bs.length = 32 → (∀ b ∈ bs, b < 256) →
      Identity.decode (Identity.encode bs) = .ok bs) ∧
    (∀ s : String, s.data.length = 64 →
      (∀ c ∈ s.data, Identity.isHexChar c = true) →
      Identity.decode s = .ok (Identity.decodeBytes s.data) ∧
      Identity.encode (Identity.decodeBytes s.data) =
        Identity.strToLower s) := by
  constructor
  · intro bs hlen hbytes
    have hdata : (Identity.encode bs).data = bs.flatMap Identity.encodeByte :=
      rfl
    have hall : (Identity.encode bs).data.all Identity.isHexChar = true := by
      rw [hdata, List.all_eq_true]
      exact Identity.all_isHexChar_encode bs hbytes
    have hlen64 : (Identity.encode bs).data.length = 64 := by
      rw [hdata, Identity.length_flatMap_encodeByte, hlen]
    rw [Identity.decode, if_pos hall, if_pos hlen64, hdata,
      Identity.decodeBytes_encode bs hbytes]
  · intro s hlen hhex
    have hall : s.data.all Identity.isHexChar = true :=
      List.all_eq_true.mpr hhex
    constructor
    · rw [Identity.decode, if_pos hall, if_pos hlen]
    · have heven : s.data.length % 2 = 0 := by omega
      rw [Identity.encode, Identity.flatMap_decodeBytes s.data hhex heven,
        Identity.strToLower]

namespace Tasks

/-- Modelled from the spec: the task status lattice of section 4.4,
Empty < Claimed < Done. The CRDT implementation is behind the native
binding layer and absent from the repository sources (only
tests/test_task_list.py references it). -/
inductive Status where
  | empty
  | claimed
  | done
  deriving DecidableEq

/-- The rank of a status in the lattice Empty < Claimed < Done. -/
def Status.rank : Status → Nat
  | .empty => 0
  | .claimed => 1
  | .done => 2

/-- Modelled from the spec: the join of two statuses is the maximum in the
lattice order — merge always keeps the maximum status observed. -/
def Status.join (s t : Status) : Status :=
  if s.rank ≤ t.rank then t else s

/-- Agent identifiers, as 32-byte values compared lexicographically for the
deterministic claim tie-break of section 4.4. -/
abbrev AgentId := List Nat

/-- Task identifiers, 32-byte values. -/
abbrev TaskId := List Nat

/-- Modelled from the spec: the ordering key of a task, merged by
last-writer-wins on a logical timestamp with an AgentId tie-break
(section 4.4, reorder). -/
structure OrderKey where
  ts : Nat
  agent : AgentId
  pos : Nat
  deriving DecidableEq

/-- Modelled from the spec: last-writer-wins join of ordering keys — the
larger logical timestamp wins; on a timestamp tie the lexicographically
smaller AgentId wins; the position disambiguates the remaining tie so the
choice is total and deterministic. -/
def OrderKey.join (k l : OrderKey) : OrderKey :=
  if k.ts < l.ts then l
  else if l.ts < k.ts then k
  else if l.agent < k.agent then l
  else if k.agent < l.agent then k
  else if k.pos < l.pos then l
  else k

/-- Modelled from the spec: resolution of the assignee field when two
replicas hold a task at equal status — the claim with the lexicographically
smaller AgentId wins; an absent assignee never displaces a recorded one. -/
def assigneeMin : Option AgentId → Option AgentId → Option AgentId
  | none, b => b
  | a, none => a
  | some a, some b => some (min a b)

/-- Modelled from the spec: joint resolution of status and assignee — the
side with the strictly larger status supplies both; at equal status the
assignee tie-break applies (section 4.4, concurrent-claim conflict). -/
def statusJoin (s t : Status × Option AgentId) : Status × Option AgentId :=
  if s.1.rank < t.1.rank then t
  else if t.1.rank < s.1.rank then s
  else (s.1, assigneeMin s.2 t.2)

/-- Modelled from the spec: one task record of the task list (section 3,
TaskItem), with per-field conflict resolution state. -/
structure TaskRecord where
  title : String
  description : String
  priority : Nat
  status : Status
  assignee : Option AgentId
  ord : OrderKey
  deriving DecidableEq

/-- Modelled from the spec: the per-task merge (join) of two replicas of a
record — status and assignee jointly, ordering key by last-writer-wins, and
the immutable creation fields by a deterministic symmetric rule
(lexicographic minimum for the texts, maximum for priority; replicas of the
same add_task agree on these, so any total deterministic choice fits). -/
def joinRec (a b : TaskRecord) : TaskRecord :=
  { title := min a.title b.title
    description := min a.description b.description
    priority := max a.priority b.priority
    status := (statusJoin (a.status, a.assignee) (b.status, b.assignee)).1
    assignee := (statusJoin (a.status, a.assignee) (b.status, b.assignee)).2
    ord := OrderKey.join a.ord b.ord }

/-- Modelled from the spec: merge of an optional record — a task present on
one side only is kept as is (OR-Set add semantics); present on both sides,
the records are joined. -/
def optionJoin : Option TaskRecord → Option TaskRecord → Option TaskRecord
  | none, b => b
  | a, none => a
  | some a, some b => some (joinRec a b)

/-- Modelled from the spec: a task list state (and likewise a delta) maps
each task id to the record held for it, if any. -/
abbrev TaskListState := TaskId → Option TaskRecord

/-- Modelled from the spec: applying a received delta merges it into the
local state task by task, using the join rules (section 4.4,
synchronization). -/
def applyDelta (s d : TaskListState) : TaskListState :=
  fun id => optionJoin (s id) (d id)

/-- Two deltas are non-conflicting when no task is touched by both. -/
def NonConflicting (d₁ d₂ : TaskListState) : Prop :=
  ∀ id, d₁ id = none ∨ d₂ id = none

lemma assigneeMin_idem (a : Option AgentId) : assigneeMin a a = a := by
  cases a with
  | none => rfl
  | some x => simp [assigneeMin]

lemma assigneeMin_right_idem (a b : Option AgentId) :
    assigneeMin (assigneeMin a b) b = assigneeMin a b := by
  cases a with
  | none =>
    cases b with
    | none => rfl
    | some y => simp [assigneeMin]
  | some x =>
    cases b with
    | none => rfl
    | some y => simp [assigneeMin, min_assoc]

lemma statusJoin_idem (s : Status × Option AgentId) : statusJoin s s = s := by
  rw [statusJoin, if_neg (lt_irrefl _), if_neg (lt_irrefl _),
    assigneeMin_idem]

lemma statusJoin_right_idem (s t : Status × Option AgentId) :
    statusJoin (statusJoin s t) t = statusJoin s t := by
  by_cases h₁ : s.1.rank < t.1.rank
  · have hst : statusJoin s t = t := by rw [statusJoin, if_pos h₁]
    rw [hst, statusJoin_idem]
  · by_cases h₂ : t.1.rank < s.1.rank
    · have hst : statusJoin s t = s := by
        rw [statusJoin, if_neg h₁, if_pos h₂]
      rw [hst, statusJoin, if_neg h₁, if_pos h₂]
    · have hst : statusJoin s t = (s.1, assigneeMin s.2 t.2) := by
        rw [statusJoin, if_neg h₁, if_neg h₂]
      rw [hst]
      simp [statusJoin, h₁, h₂, assigneeMin_right_idem]

lemma orderKey_join_selective (k l : OrderKey) :
    OrderKey.join k l = k ∨ OrderKey.join k l = l := by
  rw [OrderKey.join]
  split_ifs
  · exact Or.inr rfl
  · exact Or.inl rfl
  · exact Or.inr rfl
  · exact Or.inl rfl
  · exact Or.inr rfl
  · exact Or.inl rfl

lemma orderKey_join_idem (k : OrderKey) : OrderKey.join k k = k := by
  rw [OrderKey.join]
  split_ifs <;> rfl

lemma orderKey_join_right_idem (k l : OrderKey) :
    OrderKey.join (OrderKey.join k l) l = OrderKey.join k l := by
  rcases orderKey_join_selective k l with h | h
  · rw [h]
    exact h
  · rw [h, orderKey_join_idem]

lemma joinRec_idem (a : TaskRecord) : joinRec a a = a := by
  rw [joinRec, statusJoin_idem]
  simp [orderKey_join_idem]

lemma joinRec_right_idem (a b : TaskRecord) :
    joinRec (joinRec a b) b = joinRec a b := by
  rw [joinRec, joinRec]
  have hsa : ((statusJoin (a.status, a.assignee) (b.status, b.assignee)).1,
      (statusJoin (a.status, a.assignee) (b.status, b.assignee)).2) =
      statusJoin (a.status, a.assignee) (b.status, b.assignee) := rfl
  simp only [hsa, statusJoin_right_idem, orderKey_join_right_idem,
    min_assoc, min_self, max_assoc, max_self]

lemma optionJoin_none_right (a : Option TaskRecord) :
    optionJoin a none = a := by
  cases a <;> rfl

lemma optionJoin_right_idem (a b : Option TaskRecord) :
    optionJoin (optionJoin a b) b = optionJoin a b := by
  cases a with
  | none =>
    cases b with
    | none => rfl
    | some rb => simp [optionJoin, joinRec_idem]
  | some ra =>
    cases b with
    | none => rfl
    | some rb => simp [optionJoin, joinRec_right_idem]

end Tasks

/-- C7: task-list delta merge is idempotent — applying a delta twice yields
the same state as applying it once — and commutative for non-conflicting
deltas: applying D1 then D2 yields the same final state as D2 then D1. -/
theorem tasklist_merge_idem_comm :
    (∀ (s d : Tasks.TaskListState),
      Tasks.applyDelta (Tasks.applyDelta s d) d = Tasks.applyDelta s d) ∧
    (∀ (s d₁ d₂ : Tasks.TaskListState), Tasks.NonConflicting d₁ d₂ →
      Tasks.applyDelta (Tasks.applyDelta s d₁) d₂ =
        Tasks.applyDelta (Tasks.applyDelta s d₂) d₁) := by
  constructor
  · intro s d
    funext id
    exact Tasks.optionJoin_right_idem (s id) (d id)
  · intro s d₁ d₂ h
    funext id
    rcases h id with h₁ | h₂
    · rw [Tasks.applyDelta, Tasks.applyDelta, Tasks.applyDelta,
        Tasks.applyDelta, h₁, Tasks.optionJoin_none_right,
        Tasks.optionJoin_none_right]
    · rw [Tasks.applyDelta, Tasks.applyDelta, Tasks.applyDelta,
        Tasks.applyDelta, h₂, Tasks.optionJoin_none_right,
        Tasks.optionJoin_none_right]

/-- A concrete task record in Empty status. -/
def sampleRecord : Tasks.TaskRecord :=
  { title := "fix bug"
    description := "timeout"
    priority := 0
    status := Tasks.Status.empty
    assignee := none
    ord := { ts := 0, agent := [], pos := 0 } }

/-- A concrete delta touching only task id 1. -/
def sampleDelta1 : Tasks.TaskListState :=
  fun id => if id = [1] then some sampleRecord else none

/-- A concrete delta touching only task id 2. -/
def sampleDelta2 : Tasks.TaskListState :=
  fun id => if id = [2] then some sampleRecord else none

/-- Witness for tasklist_merge_idem_comm at concrete inputs. -/
theorem tasklist_merge_witness :
    Tasks.NonConflicting sampleDelta1 sampleDelta2 ∧
    Tasks.applyDelta (Tasks.applyDelta sampleDelta1 sampleDelta1) sampleDelta2 =
      Tasks.applyDelta (Tasks.applyDelta sampleDelta1 sampleDelta2)
        sampleDelta1 := by
  have h : Tasks.NonConflicting sampleDelta1 sampleDelta2 := by
    intro id
    by_cases h₁ : id = ([1] : Tasks.TaskId)
    · right
      rw [sampleDelta2, h₁]
      simp
    · left
      rw [sampleDelta1]
      simp [h₁]
  exact ⟨h, tasklist_merge_idem_comm.2 sampleDelta1 sampleDelta1 sampleDelta2 h⟩

/-- The error kinds of illegal task status changes (spec section 7). -/
inductive TaskError where
  | invalidTransition
  | notAssignee
  deriving DecidableEq

/-- Modelled from the spec: claim_task transitions Empty to Claimed and
records the caller as assignee, if and only if the locally known status is
Empty; otherwise it fails with InvalidTransition (section 4.4). -/
def claimTask (r : Tasks.TaskRecord) (caller : Tasks.AgentId) :
    Except TaskError Tasks.TaskRecord :=
  if r.status = Tasks.Status.empty then
    .ok { r with status := Tasks.Status.claimed, assignee := some caller }
  else .error .invalidTransition

/-- Modelled from the spec: complete_task transitions Claimed to Done; it
fails with InvalidTransition if the task is not Claimed and with NotAssignee
if the caller is not the recorded assignee (section 4.4). -/
def completeTask (r : Tasks.TaskRecord) (caller : Tasks.AgentId) :
    Except TaskError Tasks.TaskRecord :=
  if r.status = Tasks.Status.claimed then
    if r.assignee = some caller then
      .ok { r with status := Tasks.Status.done }
    else .error .notAssignee
  else .error .invalidTransition

/-- C8: a task's status only moves forward in the lattice
Empty < Claimed < Done: a successful claim_task or complete_task never
lowers the rank of the status, the merge of two replicas carries exactly the
join (maximum) of their statuses, and that merged status is at least each
replica's status — so no local operation or remote merge ever moves a status
backward. -/
theorem status_monotone :
    (∀ (r r' : Tasks.TaskRecord) (caller : Tasks.AgentId),
      claimTask r caller = .ok r' → r.status.rank ≤ r'.status.rank) ∧
    (∀ (r r' : Tasks.TaskRecord) (caller : Tasks.AgentId),
      completeTask r caller = .ok r' → r.status.rank ≤ r'.status.rank) ∧
    (∀ a b : Tasks.TaskRecord,
      (Tasks.joinRec a b).status = Tasks.Status.join a.status b.status) ∧
    (∀ a b : Tasks.TaskRecord,
      a.status.rank ≤ (Tasks.joinRec a b).status.rank ∧
      b.status.rank ≤ (Tasks.joinRec a b).status.rank) := by
  have hjoin : ∀ a b : Tasks.TaskRecord,
      (Tasks.joinRec a b).status = Tasks.Status.join a.status b.status := by
    intro a b
    cases ha : a.status <;> cases hb : b.status <;>
      simp [Tasks.joinRec, Tasks.statusJoin, Tasks.Status.join,
        Tasks.Status.rank, ha, hb]
  refine ⟨?_, ?_, hjoin, ?_⟩
  · intro r r' caller h
    rw [claimTask] at h
    split_ifs at h with hs
    injection h with h
    subst h
    rw [hs]
    simp [Tasks.Status.rank]
  · intro r r' caller h
    rw [completeTask] at h
    split_ifs at h with hs hA
    injection h with h
    subst h
    rw [hs]
    simp [Tasks.Status.rank]
  · intro a b
    rw [hjoin a b, Tasks.Status.join]
    split_ifs with h
    · exact ⟨h, le_refl _⟩
    · exact ⟨le_refl _, le_of_not_le h⟩

/-- The concrete record after a successful claim by agent 7. -/
def claimedRecord : Tasks.TaskRecord :=
  { sampleRecord with
    status := Tasks.Status.claimed
    assignee := some [7] }

/-- Witness for status_monotone at a concrete input. -/
theorem status_monotone_witness :
    claimTask sampleRecord [7] = .ok claimedRecord ∧
    sampleRecord.status.rank ≤ claimedRecord.status.rank :=
  ⟨rfl, status_monotone.1 sampleRecord claimedRecord [7] rfl⟩

/-- A concrete 32-byte identifier. -/
def sampleId : List Nat := List.replicate 32 171

/-- A concrete valid 64-character hex string mixing upper and lower case. -/
def sampleHex : String :=
  String.mk (List.replicate 8 'a' ++ List.replicate 8 'B' ++
    List.replicate 8 '0' ++ List.replicate 8 'F' ++ List.replicate 32 'c')

/-- Witness for hex_roundtrip at concrete inputs. -/
theorem hex_roundtrip_witness :
    Identity.decode (Identity.encode sampleId) = .ok sampleId ∧
    (Identity.decode sampleHex = .ok (Identity.decodeBytes sampleHex.data) ∧
     Identity.encode (Identity.decodeBytes sampleHex.data) =
       Identity.strToLower sampleHex) :=
  ⟨hex_roundtrip.1 sampleId (by decide) (by decide),
   hex_roundtrip.2 sampleHex (by decide) (by decide)⟩

/-- Modelled from the spec: the agent builder of section 6 — the builder
implementation is behind the native binding layer and absent from the
repository sources (tests/test_agent_builder.py exercises it). Its
observable state for reuse checking is the consumed flag. -/
structure AgentBuilder where
  consumed : Bool
  deriving DecidableEq

/-- A fresh builder, as returned by Agent.builder(). -/
def AgentBuilder.new : AgentBuilder := ⟨false⟩

/-- The builder-reuse error of spec section 7. -/
inductive BuildError where
  | alreadyConsumed
  deriving DecidableEq

/-- Modelled from the spec: build() constructs the Agent on first use and
fails with AlreadyConsumed if invoked again on the same builder instance
(sections 6 and 7; the test matches the message Builder already consumed). -/
def AgentBuilder.build (b : AgentBuilder) :
    Except BuildError AgentState × AgentBuilder :=
  if b.consumed then (.error .alreadyConsumed, b)
  else (.ok Agent.init, { b with consumed := true })

/-- The builder after n build() calls starting from a fresh builder. -/
def buildIter (n : Nat) : AgentBuilder :=
  (fun b => (AgentBuilder.build b).2)^[n] AgentBuilder.new

lemma buildIter_consumed : ∀ n : Nat, 1 ≤ n → (buildIter n).consumed = true := by
  intro n hn
  induction n with
  | zero => omega
  | succ m ih =>
    rw [buildIter, Function.iterate_succ_apply']
    rcases Nat.eq_or_lt_of_le hn with h | h
    · have hm : m = 0 := by omega
      subst hm
      rfl
    · have hm : 1 ≤ m := by omega
      have hc := ih hm
      rw [AgentBuilder.build]
      rw [buildIter] at hc
      rw [if_pos hc]
      exact hc

/-- C9: the first call to build() on a fresh builder succeeds in
constructing an Agent, and every subsequent call to build() on the same
builder instance fails with AlreadyConsumed. -/
theorem builder_single_use :
    (AgentBuilder.build (buildIter 0)).1 = .ok Agent.init ∧
    ∀ n : Nat, 1 ≤ n →
      (AgentBuilder.build (buildIter n)).1 = .error .alreadyConsumed := by
  constructor
  · rfl
  · intro n hn
    rw [AgentBuilder.build, if_pos (buildIter_consumed n hn)]

/-- Witness for builder_single_use at a concrete input. -/
theorem builder_single_use_witness :
    1 ≤ 2 ∧
    (AgentBuilder.build (buildIter 2)).1 = .error .alreadyConsumed :=
  ⟨by decide, builder_single_use.2 2 (by decide)⟩

/-- Modelled from the spec: a Subscription handle (section 3 and 4.3) — a
per-topic delivery queue with a monotonic one-way closed flag. The
Subscription type is provided by the native binding layer and absent from
the repository sources (tests/test_pubsub.py exercises it). -/
structure Subscription where
  topic : String
  queue : List Message
  closed : Bool
  deriving DecidableEq

/-- Modelled from the spec: subscribe(topic) returns an open handle with an
empty queue, without blocking on network I/O. -/
def Subscription.create (topic : String) : Subscription :=
  { topic := topic, queue := [], closed := false }

/-- Modelled from the spec: close() sets the one-way closed flag. -/
def Subscription.close (s : Subscription) : Subscription :=
  { s with closed := true }

/-- The outcome of one consumption attempt on a subscription: a message, the
end of the sequence because the subscription is closed (reported as
SubscriptionClosed), or a suspension awaiting a message. -/
inductive RecvResult where
  | msg (m : Message) (rest : Subscription)
  | closedEnd
  | wouldBlock
  deriving DecidableEq

/-- Modelled from the spec: consuming a subscription yields queued messages
in order, terminates once closed and drained, and suspends only when the
queue is empty and the subscription is still open. -/
def Subscription.next (s : Subscription) : RecvResult :=
  match s.queue with
  | m :: rest => .msg m { s with queue := rest }
  | [] => if s.closed then .closedEnd else .wouldBlock

/-- C5: subscribing and then immediately closing yields a message sequence
with zero messages (the queue is empty), any further consumption attempt
reports the closed end of the sequence rather than suspending — so
consumption after close never hangs — and close is idempotent with the
closed flag set for good. -/
theorem subscribe_close_empty (topic : String) :
    ((Subscription.create topic).close).queue = [] ∧
    ((Subscription.create topic).close).next = .closedEnd ∧
    ((Subscription.create topic).close).closed = true ∧
    ((Subscription.create topic).close).close =
      (Subscription.create topic).close :=
  ⟨rfl, rfl, rfl, rfl⟩

end X0x
